import Mathlib

/-!
Shallow embedding of the `logwrap` Go package (pabigot/logwrap) and proofs
about it.  Each definition mirrors a declaration of `logwrap.go`; stateful
Go methods become explicit state-passing functions, Go channels become an
explicit FIFO buffer, and `fmt.Sprintf` is modelled by a small executable
formatter restricted to the verbs the package exercises.
-/

namespace Logwrap

/-- Priority distinguishes log message priority.  In the source it is an
`int32`; higher priority messages have lower numeric value.  We model it as
`Int` (the seven defined constants are 0..6, far from any overflow). -/
abbrev Priority := Int

/-- Emerg means the system is unusable. -/
def Emerg : Priority := 0

/-- Crit identifies critical conditions. -/
def Crit : Priority := 1

/-- Error conditions. -/
def Error : Priority := 2

/-- Warning conditions. -/
def Warning : Priority := 3

/-- Notice identifies normal but significant conditions. -/
def Notice : Priority := 4

/-- Info identifies informational messages. -/
def Info : Priority := 5

/-- Debug is used for debugging. -/
def Debug : Priority := 6

/-- The seven defined Priority values, in numeric order. -/
def definedPriorities : List Priority :=
  [Emerg, Crit, Error, Warning, Notice, Info, Debug]

/-- Model of `Priority.String`: the `switch` returns the canonical name for
the seven defined values and panics otherwise; the panic is modelled as
`none`. -/
def PriorityString (p : Priority) : Option String :=
  if p = Emerg then some "Emerg"
  else if p = Crit then some "Crit"
  else if p = Error then some "Error"
  else if p = Warning then some "Warning"
  else if p = Notice then some "Notice"
  else if p = Info then some "Info"
  else if p = Debug then some "Debug"
  else none

/-- Model of Go `strings.ToLower`, restricted to ASCII case folding (all the
tokens `ParsePriority` accepts are ASCII). -/
def goToLower (s : String) : String := ⟨s.data.map Char.toLower⟩

/-- Model of `ParsePriority`: a `switch` on `strings.ToLower(s)`.  The Go
zero value of `pri` in the failing branch is `Priority(0) = Emerg`. -/
def ParsePriority (s : String) : Priority × Bool :=
  match goToLower s with
  | "emergency" => (Emerg, true)
  | "emerg" => (Emerg, true)
  | "critical" => (Crit, true)
  | "crit" => (Crit, true)
  | "error" => (Error, true)
  | "warn" => (Warning, true)
  | "warning" => (Warning, true)
  | "notice" => (Notice, true)
  | "info" => (Info, true)
  | "debug" => (Debug, true)
  | _ => (Emerg, false)

/-- Model of `Priority.Enables`: `return p2 <= p`. -/
def Priority.Enables (p p2 : Priority) : Bool := p2 ≤ p

/-- Model of a Go `error` value: `base` records (by message) the error this
one wraps via the `%w` verb, `msg` is the text produced by `Error()`. -/
structure GoError where
  base : Option String
  msg : String
deriving DecidableEq

/-- Model of `ErrInvalidPriority = errors.New("invalid priority")`. -/
def ErrInvalidPriority : GoError := { base := none, msg := "invalid priority" }

/-- Model of `fmt.Errorf("%w: %s", base, s)`: the result wraps `base` and its
text is the base's text, a colon-space, then `s`. -/
def errorfWrap (base : GoError) (s : String) : GoError :=
  { base := some base.msg, msg := base.msg ++ ": " ++ s }

/-- Model of `Priority.Set`: on a parse success the receiver is overwritten
with the parsed value and no error results; on failure the receiver keeps
its old value and the error wraps `ErrInvalidPriority` with the input
appended. -/
def PrioritySet (p : Priority) (s : String) : Priority × Option GoError :=
  match ParsePriority s with
  | (pri, true) => (pri, none)
  | (_, false) => (p, some (errorfWrap ErrInvalidPriority s))

/-- Claim C4: for every pair of priorities drawn from the seven defined values,
`a.Enables(b)` returns true if and only if the numeric value of `b` is less
than or equal to the numeric value of `a`. -/
theorem c4_enables_iff_le (a b : Priority) (ha : a ∈ definedPriorities)
    (hb : b ∈ definedPriorities) :
    Priority.Enables a b = true ↔ b ≤ a := by
  simp [Priority.Enables]

/-- Witness for C4 at the concrete pair (Info, Crit). -/
theorem c4_enables_iff_le_witness :
    Priority.Enables Info Crit = true ↔ Crit ≤ Info :=
  c4_enables_iff_le Info Crit (by decide) (by decide)

/-- Claim C6: for every string `s`, `ParsePriority` returns the priority matching
`s` case-insensitively against the tokens emerg/emergency, crit/critical,
error, warn/warning, notice, info, debug paired with `true`, and returns
`false` for every string matching none of them. -/
theorem c6_parse_priority_grammar (s : String) :
    (ParsePriority s = (Emerg, true) ↔
      (goToLower s = "emerg" ∨ goToLower s = "emergency")) ∧
    (ParsePriority s = (Crit, true) ↔
      (goToLower s = "crit" ∨ goToLower s = "critical")) ∧
    (ParsePriority s = (Error, true) ↔ goToLower s = "error") ∧
    (ParsePriority s = (Warning, true) ↔
      (goToLower s = "warn" ∨ goToLower s = "warning")) ∧
    (ParsePriority s = (Notice, true) ↔ goToLower s = "notice") ∧
    (ParsePriority s = (Info, true) ↔ goToLower s = "info") ∧
    (ParsePriority s = (Debug, true) ↔ goToLower s = "debug") ∧
    ((ParsePriority s).2 = false ↔ goToLower s ∉
      (["emerg", "emergency", "crit", "critical", "error", "warn",
        "warning", "notice", "info", "debug"] : List String)) := by
  unfold ParsePriority
  split <;> rename_i heq <;> first
    | (rw [heq]; decide)
    | simp_all

/-- Claim C7: for every one of the seven defined Priority values `p`,
`ParsePriority (p.String())` returns `(p, true)`. -/
theorem c7_parse_string_round_trip (p : Priority)
    (hp : p ∈ definedPriorities) :
    ∃ s, PriorityString p = some s ∧ ParsePriority s = (p, true) := by
  fin_cases hp <;> exact ⟨_, rfl, by decide⟩

/-- Witness for C7 at the concrete priority Warning. -/
theorem c7_parse_string_round_trip_witness :
    ∃ s, PriorityString Warning = some s ∧ ParsePriority s = (Warning, true) :=
  c7_parse_string_round_trip Warning (by decide)

/-- Claim C8: `Priority.Set` stores the parsed priority and returns no error when
parsing succeeds; when parsing fails it leaves the receiver unchanged and
returns an error wrapping `ErrInvalidPriority` whose text contains the
offending input `s`. -/
theorem c8_set_parse_or_error (p : Priority) (s : String) :
    PrioritySet p s = (if (ParsePriority s).2 then ((ParsePriority s).1, none)
      else (p, some (errorfWrap ErrInvalidPriority s))) ∧
    (errorfWrap ErrInvalidPriority s).base = some ErrInvalidPriority.msg ∧
    (errorfWrap ErrInvalidPriority s).msg =
      ErrInvalidPriority.msg ++ ": " ++ s ∧
    ∃ pre, (errorfWrap ErrInvalidPriority s).msg = pre ++ s := by
  refine ⟨?_, rfl, rfl, ⟨ErrInvalidPriority.msg ++ ": ", rfl⟩⟩
  rcases h : ParsePriority s with ⟨pri, b⟩
  cases b <;> simp [PrioritySet, h]

/-- Argument values passed through the variadic `...interface{}` parameter.
Only the argument kinds the package's own tests exercise are modelled. -/
inductive Arg where
  | str (s : String)
  | int (n : Int)

/-- Rendering of a single argument value. -/
def argString : Arg → String
  | .str s => s
  | .int n => toString n

/-- Character-level worker for the `fmt.Sprintf` model: substitutes `%d` and
`%s` verbs with the next argument, `%%` with a literal percent, and copies
everything else. -/
def SprintfAux : List Char → List Arg → List Char
  | [], _ => []
  | '%' :: 'd' :: cs, a :: as => (argString a).data ++ SprintfAux cs as
  | '%' :: 's' :: cs, a :: as => (argString a).data ++ SprintfAux cs as
  | '%' :: '%' :: cs, as => '%' :: SprintfAux cs as
  | c :: cs, as => c :: SprintfAux cs as

/-- Model of `fmt.Sprintf` restricted to the `%d`/`%s`/`%%` verbs.  All the
claims treat the formatted text as opaque, so the exact verb set is
irrelevant to the theorems. -/
def Sprintf (format : String) (args : List Arg) : String :=
  ⟨SprintfAux format.data args⟩

/-- Model of the package-level `priMap` lookup table.  A Go map read of a
missing key yields the zero value, the empty string. -/
def priMap (pri : Priority) : String :=
  if pri = Emerg then "!"
  else if pri = Crit then "C"
  else if pri = Error then "E"
  else if pri = Warning then "W"
  else if pri = Notice then "N"
  else if pri = Info then "I"
  else if pri = Debug then "D"
  else ""

/-- State of a `LogLogger`: the `log.Logger` prefix set by `SetId`, the
priority threshold, and the lines written so far to the output stream.  The
wall-clock date/time decoration that `log.LstdFlags` inserts is elided: it
is real time, carries no information from the call, and with `Lmsgprefix`
set the identifier is placed immediately before the message in either
case. -/
structure LogLogger where
  id : String
  pri : Priority
  out : List String

/-- Model of `LogLogMaker`: a fresh logger with no identifier, priority
Warning, and nothing written. -/
def LogLogMaker : LogLogger := { id := "", pri := Warning, out := [] }

/-- True when the string's last character is a newline. -/
def endsNL (s : String) : Bool := s.data.getLast? == some '\n'

/-- Model of `log.Logger.Output` for one message `m`: the emitted line is
the configured identifier, then `m`, then a newline unless `m` already ends
with one. -/
def logLine (id m : String) : String :=
  id ++ m ++ (if endsNL m then "" else "\n")

/-- Appends one formatted line to the logger's output stream. -/
def logOutput (v : LogLogger) (m : String) : LogLogger :=
  { v with out := v.out ++ [logLine v.id m] }

/-- Model of `LogLogger.F`: when the threshold enables `pri`, format the
arguments and print `[<code>] <message>` through the underlying
`log.Logger`; otherwise do nothing. -/
def LogLoggerF (v : LogLogger) (pri : Priority) (format : String)
    (args : List Arg) : LogLogger :=
  if Priority.Enables v.pri pri then
    logOutput v ("[" ++ priMap pri ++ "] " ++ Sprintf format args)
  else v

/-- Model of `LogLogger.SetId`: the identifier becomes the `log.Logger`
prefix (placed immediately before the message via `Lmsgprefix`). -/
def LogLoggerSetId (v : LogLogger) (id : String) : LogLogger :=
  { v with id := id }

/-- Model of `LogLogger.SetPriority`. -/
def LogLoggerSetPriority (v : LogLogger) (pri : Priority) : LogLogger :=
  { v with pri := pri }

/-- Every line the model of `log.Logger.Output` produces ends in a
newline. -/
theorem endsNL_logLine (id m : String) : endsNL (logLine id m) = true := by
  unfold logLine
  by_cases h : endsNL m = true
  · rw [if_pos h]
    unfold endsNL at h ⊢
    rcases id with ⟨l1⟩; rcases m with ⟨l2⟩
    simp only [String.data_append] at *
    have h2 : l2 ≠ [] := by
      intro he; subst he; simp at h
    rw [List.append_nil, List.getLast?_append_of_ne_nil _ h2]
    exact h
  · rw [if_neg h]
    unfold endsNL
    rcases id with ⟨l1⟩; rcases m with ⟨l2⟩
    simp only [String.data_append]
    rw [List.getLast?_append_of_ne_nil _ (by simp)]
    rfl

/-- Claim C5: `LogLogger.F` writes exactly one line of the form
`<identifier>[<code>] <formatted message>` terminated by a newline if and
only if the threshold enables the message priority, writes nothing
otherwise, and the single-character codes are `!`, `C`, `E`, `W`, `N`, `I`,
`D` for the seven priorities. -/
theorem c5_sink_logger_line (v : LogLogger) (pri : Priority)
    (format : String) (args : List Arg) :
    LogLoggerF v pri format args =
      (if Priority.Enables v.pri pri = true then
        { v with out := v.out ++
            [v.id ++ ("[" ++ priMap pri ++ "] " ++ Sprintf format args) ++
              (if endsNL ("[" ++ priMap pri ++ "] " ++ Sprintf format args)
                then "" else "\n")] }
       else v) ∧
    endsNL (logLine v.id
      ("[" ++ priMap pri ++ "] " ++ Sprintf format args)) = true ∧
    (priMap Emerg, priMap Crit, priMap Error, priMap Warning, priMap Notice,
      priMap Info, priMap Debug) = ("!", "C", "E", "W", "N", "I", "D") := by
  refine ⟨?_, endsNL_logLine _ _, by decide⟩
  by_cases h : Priority.Enables v.pri pri = true <;>
    simp [LogLoggerF, logOutput, logLine, h]

/-- State of a `nullLogger` is nothing but its configured priority
(`type nullLogger Priority`). -/
def nullLoggerPriority (v : Priority) : Priority := v

/-- Model of `nullLogger.F`: the body is empty, so the state is returned
unchanged and nothing is ever written anywhere. -/
def nullLoggerF (v : Priority) (pri : Priority) (format : String)
    (args : List Arg) : Priority := v

/-- Model of `nullLogger.SetId`: accepted, no effect. -/
def nullLoggerSetId (v : Priority) (id : String) : Priority := v

/-- Model of `nullLogger.SetPriority`: the state becomes the new
priority. -/
def nullLoggerSetPriority (v : Priority) (pri : Priority) : Priority := pri

/-- Model of `NullLogMaker`: the state of the freshly returned logger, with
priority Warning. -/
def NullLogMaker : Priority := Warning

/-- Claim C10: a Null Logger's `F` changes no state and produces no output,
`SetId` has no effect, the initial priority is Warning, and after
`SetPriority p` the priority reads back as `p`. -/
theorem c10_null_logger_frame (v p pri : Priority) (format : String)
    (args : List Arg) (id : String) :
    nullLoggerF v pri format args = v ∧
    nullLoggerSetId v id = v ∧
    nullLoggerPriority NullLogMaker = Warning ∧
    nullLoggerPriority (nullLoggerSetPriority v p) = p :=
  ⟨rfl, rfl, rfl, rfl⟩

/-- The `ImmutableLogger` interface over a logger whose mutable state has
type `σ`: `Priority()` reads the state, `F` formats-and-emits, threading the
state explicitly. -/
structure ImmutableLogger (σ : Type) where
  priority : σ → Priority
  F : σ → Priority → String → List Arg → σ

/-- Model of the `chanLogger` struct: the channel reference `ech` (a channel
identity, since the Go field is a pointer-like channel value), the format
text prepended at submission, and the wrapped logger. -/
structure chanLogger (σ : Type) where
  ech : Nat
  pfx : String
  lgr : ImmutableLogger σ

/-- Model of the `emittable` struct: a queued message capturing the wrapped
logger, the priority, the already-prefix-concatenated format string, and the
arguments. -/
structure emittable (σ : Type) where
  lgr : ImmutableLogger σ
  pri : Priority
  fmt : String
  args : List Arg

/-- Model of `emittable.Emit`: `m.lgr.F(m.pri, m.fmt, m.args...)`. -/
def emittableEmit {σ : Type} (m : emittable σ) (s : σ) : σ :=
  m.lgr.F s m.pri m.fmt m.args

/-- State of a Go channel of `Emitter`s: its capacity, its FIFO buffer, and
whether it has been closed. -/
structure Chan (σ : Type) where
  cap : Nat
  buf : List (emittable σ)
  closed : Bool

/-- A channel send appends the message at the tail of the FIFO buffer.
(Blocking when the buffer is full affects timing only, never message
content or order, so it does not appear in the state transition.) -/
def chanSend {σ : Type} (ch : Chan σ) (m : emittable σ) : Chan σ :=
  { ch with buf := ch.buf ++ [m] }

/-- The queued message `chanLogger.F` constructs: wrapped logger, priority,
`v.pfx + format`, arguments. -/
def mkEmittable {σ : Type} (cl : chanLogger σ) (pri : Priority)
    (format : String) (args : List Arg) : emittable σ :=
  { lgr := cl.lgr, pri := pri, fmt := cl.pfx ++ format, args := args }

/-- Model of `chanLogger.F`: a nil receiver drops the message; otherwise the
queued message is sent on the channel, with no priority check of any
kind. -/
def chanLoggerF {σ : Type} (v : Option (chanLogger σ)) (ch : Chan σ)
    (pri : Priority) (format : String) (args : List Arg) : Chan σ :=
  match v with
  | none => ch
  | some cl => chanSend ch (mkEmittable cl pri format args)

/-- Model of `chanLogger.Priority`: delegates to the wrapped logger. -/
def chanLoggerPriority {σ : Type} (cl : chanLogger σ) (s : σ) : Priority :=
  cl.lgr.priority s

/-- Model of `MakeChanLogger`: requested capacities below 1 are replaced by
1; the fresh channel is empty and open, and the endpoint has no prefix. -/
def MakeChanLogger {σ : Type} (lgr : ImmutableLogger σ) (cap : Int) :
    chanLogger σ × Chan σ :=
  ({ ech := 0, pfx := "", lgr := lgr },
   { cap := (if cap < 1 then 1 else cap).toNat, buf := [], closed := false })

/-- The dynamic content of the `ImmutableLogger` interface value that
`PrefixedChanLogger` inspects: `chanRef pc` is an interface whose dynamic
type is `*chanLogger` holding the pointer `pc` — `none` being the nil
pointer, exactly the value a failed derivation itself returns — and
`otherRef` is an interface holding any other implementation (of payload
type `τ`). -/
inductive LoggerRef (σ τ : Type) where
  | chanRef (pc : Option (chanLogger σ))
  | otherRef (o : τ)

/-- Result of a Go function call that can panic. -/
inductive GoResult (α : Type) where
  | ok (a : α)
  | panicked

/-- Model of `PrefixedChanLogger`.  The Go type assertion
`lgr.(*chanLogger)` succeeds for every interface whose dynamic type is
`*chanLogger`, including one holding a nil pointer; the subsequent copy
`cl2 := *cl` then dereferences the pointer, so a nil pointer panics
instead of producing an endpoint.  When the assertion fails, `rv` stays a
nil `*chanLogger` and that nil endpoint is returned. -/
def PrefixedChanLogger {σ τ : Type} (lgr : LoggerRef σ τ) (pfx : String) :
    GoResult (Option (chanLogger σ)) :=
  match lgr with
  | .chanRef (some cl) => .ok (some { cl with pfx := pfx })
  | .chanRef none => .panicked
  | .otherRef _ => .ok none

/-- Claim C1: `F` on the endpoint returned by `MakeChanLogger` never filters by
priority and enqueues exactly one message capturing the wrapped logger, the
priority, the prefix-concatenated format string (the prefix is empty here),
and the arguments; invoking that message's `Emit` is exactly a direct call
of the wrapped logger's `F` with those arguments. -/
theorem c1_forward_then_emit_refines_direct {σ : Type}
    (lgr : ImmutableLogger σ) (cap : Int) (pri : Priority) (f : String)
    (a : List Arg) (ch : Chan σ) (s : σ) :
    chanLoggerF (some (MakeChanLogger lgr cap).1) ch pri f a =
      { ch with buf := ch.buf ++
          [{ lgr := lgr, pri := pri, fmt := f, args := a }] } ∧
    mkEmittable (MakeChanLogger lgr cap).1 pri f a =
      { lgr := lgr, pri := pri, fmt := f, args := a } ∧
    emittableEmit { lgr := lgr, pri := pri, fmt := f, args := a :
      emittable σ } s = lgr.F s pri f a := by
  refine ⟨?_, ?_, rfl⟩ <;>
    simp [chanLoggerF, chanSend, mkEmittable, MakeChanLogger]

/-- Claim C3 counterexample: the original claim's second branch fails on
the concrete input of an interface holding a nil `*chanLogger` — an
`ImmutableLogger` neither built by `MakeChanLogger` nor derived from such,
and the very value a failed derivation returns (first conjunct) — because
`PrefixedChanLogger` on it panics (second conjunct), and a panic is not a
returned endpoint of any kind (third conjunct). -/
theorem c3_nil_chan_derivation_panics :
    PrefixedChanLogger (LoggerRef.otherRef (σ := Unit) (τ := Unit) ())
      "s1: " = GoResult.ok none ∧
    PrefixedChanLogger (LoggerRef.chanRef (σ := Unit) (τ := Unit) none)
      "s2: " = GoResult.panicked ∧
    (GoResult.panicked : GoResult (Option (chanLogger Unit))) ≠
      GoResult.ok none :=
  ⟨rfl, rfl, fun h => nomatch h⟩

/-- Claim C3 (amended): deriving from a genuine forwarding logger yields an
endpoint with the same channel and wrapped-logger reference that prepends
the new prefix to every submitted format string; deriving from an
`ImmutableLogger` whose dynamic type is not `*chanLogger` yields the nil
endpoint, whose `F` is safely callable with any priority, format and
arguments and leaves the channel untouched; but deriving from an interface
holding a nil `*chanLogger` — the value a failed derivation returns —
panics at the pointer copy instead of returning an endpoint. -/
theorem c3_prefixed_endpoint_noop_or_panic {σ τ : Type} (cl : chanLogger σ)
    (o : τ) (pfx : String) (ch : Chan σ) (pri : Priority) (f : String)
    (a : List Arg) :
    (∃ cl2, PrefixedChanLogger (LoggerRef.chanRef (τ := τ) (some cl)) pfx =
        GoResult.ok (some cl2) ∧
      cl2.ech = cl.ech ∧ cl2.lgr = cl.lgr ∧ cl2.pfx = pfx ∧
      chanLoggerF (some cl2) ch pri f a = chanSend ch
        { lgr := cl.lgr, pri := pri, fmt := pfx ++ f, args := a }) ∧
    (PrefixedChanLogger (LoggerRef.otherRef (σ := σ) o) pfx =
        GoResult.ok none ∧
      chanLoggerF (σ := σ) none ch pri f a = ch) ∧
    PrefixedChanLogger (LoggerRef.chanRef (σ := σ) (τ := τ) none) pfx =
      GoResult.panicked :=
  ⟨⟨{ cl with pfx := pfx }, rfl, rfl, rfl, rfl, rfl⟩, ⟨rfl, rfl⟩, rfl⟩

/-- Claim C9: `MakeChanLogger` coerces requested capacities at most 0 up to an
effective capacity of exactly 1, keeps capacities at least 1 unchanged, and
the channel starts open and is never closed by the forwarding logger's
`F`. -/
theorem c9_capacity_and_never_closed {σ : Type} (lgr : ImmutableLogger σ)
    (cap : Int) :
    (cap ≤ 0 → (MakeChanLogger lgr cap).2.cap = 1) ∧
    (1 ≤ cap → (MakeChanLogger lgr cap).2.cap = cap.toNat) ∧
    (MakeChanLogger lgr cap).2.closed = false ∧
    (∀ (v : Option (chanLogger σ)) (ch : Chan σ) (pri : Priority)
      (f : String) (a : List Arg),
      (chanLoggerF v ch pri f a).closed = ch.closed) := by
  refine ⟨?_, ?_, rfl, ?_⟩
  · intro h
    simp [MakeChanLogger, show cap < 1 by omega]
  · intro h
    simp [MakeChanLogger, show ¬ (cap < 1) by omega]
  · intro v ch pri f a
    cases v <;> rfl

/-- A trivial concrete `ImmutableLogger` used to instantiate witnesses. -/
def unitLogger : ImmutableLogger Unit :=
  { priority := fun _ => Warning, F := fun s _ _ _ => s }

/-- Witness for C9 at requested capacities -1 and 3. -/
theorem c9_capacity_and_never_closed_witness :
    (MakeChanLogger unitLogger (-1)).2.cap = 1 ∧
    (MakeChanLogger unitLogger 3).2.cap = (3 : Int).toNat :=
  ⟨(c9_capacity_and_never_closed unitLogger (-1)).1 (by decide),
   (c9_capacity_and_never_closed unitLogger 3).2.1 (by decide)⟩

/-- The data of one `F` call: priority, format string, arguments. -/
def Submission : Type := Priority × String × List Arg

/-- Interleaving semantics for `n` producers sharing one forwarding logger:
`sched` lists which producer performs the next `F` call, `pend j` holds
producer `j`'s not-yet-submitted calls in program order.  Each scheduled
step sends `mkEmittable` — the exact message `chanLogger.F` enqueues — on
the shared FIFO channel; the result lists the messages in queue order,
which is the order the single draining consumer receives and emits them,
tagged with the submitting producer.  A producer scheduled with nothing
left to submit does nothing. -/
def runSched {σ : Type} {n : Nat} (cl : chanLogger σ) :
    List (Fin n) → (Fin n → List Submission) → List (Fin n × emittable σ)
  | [], _ => []
  | i :: rest, pend =>
    match pend i with
    | [] => runSched cl rest pend
    | m :: ms =>
      (i, mkEmittable cl m.1 m.2.1 m.2.2) ::
        runSched cl rest (Function.update pend i ms)

/-- When the schedule grants every producer at least as many steps as it has
pending calls, every call is enqueued: one message per scheduled step. -/
theorem runSched_length {σ : Type} {n : Nat} (cl : chanLogger σ) :
    ∀ (sched : List (Fin n)) (pend : Fin n → List Submission),
      (∀ j, sched.count j ≤ (pend j).length) →
      (runSched cl sched pend).length = sched.length := by
  intro sched
  induction sched with
  | nil => intro pend _; rfl
  | cons i rest ih =>
    intro pend h
    have hi : rest.count i + 1 ≤ (pend i).length := by
      have := h i
      rwa [List.count_cons_self] at this
    match hpi : pend i with
    | [] => rw [hpi] at hi; simp at hi
    | m :: ms =>
      simp only [runSched, hpi, List.length_cons]
      rw [ih]
      intro j
      by_cases hj : j = i
      · subst hj
        rw [Function.update_same]
        rw [hpi] at hi
        simp at hi
        omega
      · rw [Function.update_noteq hj]
        have := h j
        rw [List.count_cons_of_ne hj] at this
        exact this

/-- The messages tagged with producer `i` appear in the shared queue exactly
in `i`'s submission order, whatever the interleaving. -/
theorem runSched_filter {σ : Type} {n : Nat} (cl : chanLogger σ)
    (i : Fin n) :
    ∀ (sched : List (Fin n)) (pend : Fin n → List Submission),
      (∀ j, sched.count j = (pend j).length) →
      ((runSched cl sched pend).filter (fun m => decide (m.1 = i))).map
          Prod.snd =
        (pend i).map (fun m => mkEmittable cl m.1 m.2.1 m.2.2) := by
  intro sched
  induction sched with
  | nil =>
    intro pend h
    have h0 := h i
    simp only [List.count_nil] at h0
    rw [List.eq_nil_of_length_eq_zero h0.symm]
    rfl
  | cons a rest ih =>
    intro pend h
    have ha : rest.count a + 1 = (pend a).length := by
      have := h a
      rwa [List.count_cons_self] at this
    match hpa : pend a with
    | [] => rw [hpa] at ha; simp at ha
    | m :: ms =>
      have hrest : ∀ j, rest.count j =
          ((Function.update pend a ms) j).length := by
        intro j
        by_cases hj : j = a
        · subst hj
          rw [Function.update_same]
          rw [hpa] at ha
          simp at ha
          omega
        · rw [Function.update_noteq hj]
          have := h j
          rwa [List.count_cons_of_ne hj] at this
      simp only [runSched, hpa]
      by_cases hai : a = i
      · subst hai
        rw [List.filter_cons_of_pos (by simp)]
        simp only [List.map_cons]
        rw [ih _ hrest, Function.update_same, hpa, List.map_cons]
      · rw [List.filter_cons_of_neg (by simp [hai])]
        rw [ih _ hrest, Function.update_noteq (by exact fun he => hai he.symm)]

/-- The length of a list over `Fin n` is the sum of its per-value counts. -/
theorem length_eq_sum_count {n : Nat} (l : List (Fin n)) :
    l.length = ∑ j : Fin n, l.count j := by
  induction l with
  | nil => simp
  | cons a l ih =>
    have hc : ∀ j : Fin n, (a :: l).count j = l.count j +
        (if j = a then 1 else 0) := by
      intro j
      by_cases hj : j = a
      · subst hj; simp [List.count_cons_self]
      · simp [List.count_cons_of_ne hj, hj]
    rw [List.length_cons, ih, Finset.sum_congr rfl (fun j _ => hc j),
      Finset.sum_add_distrib]
    simp

/-- Claim C2: with `n` producers each submitting `M` messages through one
forwarding logger (the schedule grants each producer exactly its `M`
steps), the FIFO queue the single consumer drains holds exactly `n * M`
messages — none lost, none duplicated — and for every producer the
messages it submitted appear in its submission order. -/
theorem c2_producers_counted_and_ordered {σ : Type} {n M : Nat}
    (cl : chanLogger σ) (sched : List (Fin n))
    (pend : Fin n → List Submission)
    (hlen : ∀ j, (pend j).length = M)
    (hcnt : ∀ j, sched.count j = M) :
    (runSched cl sched pend).length = n * M ∧
    ∀ i : Fin n,
      ((runSched cl sched pend).filter (fun m => decide (m.1 = i))).map
          Prod.snd =
        (pend i).map (fun m => mkEmittable cl m.1 m.2.1 m.2.2) := by
  constructor
  · rw [runSched_length cl sched pend (fun j => by rw [hcnt j, hlen j]),
      length_eq_sum_count]
    rw [Finset.sum_congr rfl (fun j _ => hcnt j)]
    simp [Finset.sum_const, Finset.card_univ, Nat.mul_comm]
  · intro i
    exact runSched_filter cl i sched pend (fun j => by rw [hcnt j, hlen j])

/-- A concrete schedule for the C2 witness: two producers, two messages
each, interleaved alternately. -/
def witSched : List (Fin 2) := [0, 1, 0, 1]

/-- Concrete pending submissions for the C2 witness. -/
def witPend : Fin 2 → List Submission := fun i =>
  if i = 0 then [(Warning, "a", []), (Warning, "b", [])]
  else [(Info, "c", []), (Info, "d", [])]

/-- Witness for C2: two producers with two messages each through the
forwarding logger built over `unitLogger`. -/
theorem c2_producers_counted_and_ordered_witness :
    (runSched (MakeChanLogger unitLogger 4).1 witSched witPend).length =
      2 * 2 ∧
    ∀ i : Fin 2,
      ((runSched (MakeChanLogger unitLogger 4).1 witSched witPend).filter
          (fun m => decide (m.1 = i))).map Prod.snd =
        (witPend i).map (fun m =>
          mkEmittable (MakeChanLogger unitLogger 4).1 m.1 m.2.1 m.2.2) :=
  c2_producers_counted_and_ordered (MakeChanLogger unitLogger 4).1
    witSched witPend (by decide) (by decide)

end Logwrap
